import Mathlib

/-!
Verification of the beyond-os1k kernel core against its specification.

The definitions below are a shallow embedding of the Rust sources:

* `src/kernel/src/process.rs`   — process table, `create_process`, parked image
* `src/kernel/src/scheduler.rs` — `get_next`, `scheduler_init`, `yield_now`,
                                  the live 17-word `switch_context`
* `src/kernel/src/trap.rs`      — `handle_trap`, `handle_syscall` (a7 dispatcher)
* `src/kernel/src/entry.rs`     — the second `handle_syscall` (a4 dispatcher)
* `src/user/src/lib.rs`         — user syscall ABI (`sys_call` puts the number in a7)

Machine words are modelled as `Nat`, reduced mod `2^32` where 32-bit wrap
matters.  Memory is a word-granular map `Nat → Nat` keyed by byte address.
The tar filesystem module (`tar.rs`) and the `common` constants crate are not
part of the kernel sources; the few definitions taken from them are modelled
from the specification and say so in their doc comments.
-/

namespace OS1K

/-- 2^32, the number of values of a 32-bit machine word (`usize` on rv32). -/
def WORD : Nat := 4294967296

/-- `usize::MAX` on a 32-bit target: the all-ones word. -/
def USIZE_MAX : Nat := WORD - 1

/-! ## Process table (`process.rs` / `scheduler.rs`) -/

/-- Process state, from `process.rs`: `enum State { Unused, Runnable, Exited }`. -/
inductive State where
  | Unused
  | Runnable
  | Exited
deriving DecidableEq, Repr, BEq

/-- Process control block, from `process.rs` `struct Process`.  The 8 KiB
`stack` array lives in the machine-memory model instead (see `callee_saved_regs`
and `Machine`); `page_table` belongs to the out-of-scope paging module. -/
structure Process where
  pid : Nat
  state : State
  is_kernel : Bool
  sp : Nat
deriving DecidableEq, Repr

instance : Inhabited Process := ⟨⟨0, State.Unused, false, 0⟩⟩

/-- `Process::empty()`: pid 0, `Unused`, not kernel, sp 0. -/
def Process.empty : Process := ⟨0, State.Unused, false, 0⟩

/-- `PROCS_MAX`: the process table holds 8 slots. -/
def PROCS_MAX : Nat := 8

/-- `IDLE_PID`: pid 0 is reserved for the idle process. -/
def IDLE_PID : Nat := 0

/-- The initial process table: `[const { Process::empty() }; PROCS_MAX]`. -/
def initProcs : List Process := List.replicate PROCS_MAX Process.empty

/-- `Procs::try_get_index`: index of the first slot whose pid matches. -/
def try_get_index (procs : List Process) (pid : Nat) : Option Nat :=
  procs.findIdx? (fun p => p.pid == pid)

/-- The predicate scanned for by `get_next`:
`p.state == State::Runnable && p.pid != IDLE_PID`. -/
def runnableNonIdle (p : Process) : Bool :=
  p.state == State.Runnable && p.pid != IDLE_PID

/-- The cyclic scan `iter().cycle().skip(start).take(PROCS_MAX)` over the
process table, materialised as the list of slots visited. -/
def cyclicScan (procs : List Process) (start : Nat) : List Process :=
  (List.range PROCS_MAX).map (fun k => procs.getD ((start + k) % procs.length) default)

/-- `Procs::get_next` from `scheduler.rs` (`process.rs` carries a textually
identical copy): find the current pid's slot, then scan cyclically from one
past it, over `PROCS_MAX` slots, for a `Runnable` slot with pid ≠ `IDLE_PID`;
fall back to `IDLE_PID`.  `none` models the `expect` panic when the current
pid has no slot. -/
def get_next (procs : List Process) (current_pid : Nat) : Option Nat :=
  (try_get_index procs current_pid).map fun current_index =>
    (((cyclicScan procs (current_index + 1)).find? runnableNonIdle).map
      (fun p => p.pid)).getD IDLE_PID

/-- Index of the first `Unused` slot, as scanned by `create_process`. -/
def firstUnused (procs : List Process) : Option Nat :=
  procs.findIdx? (fun p => p.state == State.Unused)

/-- The table-state effect of `create_process(entry, image, image_size)` from
`process.rs`: claim an `Unused` slot `i`, set `pid = i + 1`,
`state = Runnable`, `is_kernel = (image_size == 0)`, and park `sp` at the
lowest word of the image written at the top of the slot's stack (the image
words themselves are `callee_saved_regs`; page-table mapping belongs to the
out-of-scope paging module).  `none` models the `expect("no free process
slots")` panic.  `stackSp` abstracts the concrete stack address
`&process.stack[callee_saved_regs_start]`. -/
def create_process (procs : List Process) (imageSize : Nat) (stackSp : Nat) :
    Option (List Process × Nat) :=
  (firstUnused procs).map fun i =>
    (procs.set i ⟨i + 1, State.Runnable, imageSize == 0, stackSp⟩, i + 1)

/-- The table effect of `SYS_EXIT` (`trap.rs` / `entry.rs`): mark the first
slot whose pid equals the current pid as `Exited`. -/
def exit_process (procs : List Process) (current : Nat) : List Process :=
  match procs.findIdx? (fun p => p.pid == current) with
  | none => procs
  | some i => procs.set i { procs.getD i default with state := State.Exited }

/-- `scheduler_init` from `scheduler.rs`: create the idle process (a kernel
process, image size 0), then forcibly rewrite the pid of the first slot
carrying the freshly assigned pid to `IDLE_PID`.  On the fresh boot table the
creation always succeeds, in slot 0.  (Enabling `sie.STIE`/`sstatus.SIE` and
arming the 500 ms timer are CSR effects outside the table model.) -/
def scheduler_init : List Process :=
  match create_process initProcs 0 0 with
  | none => initProcs
  | some (t, idle_pid) =>
    match t.findIdx? (fun p => p.pid == idle_pid) with
    | none => t
    | some i => t.set i { t.getD i default with pid := IDLE_PID }

/-- `yield_now` from `scheduler.rs`, as a transformer of the pair
(process table, current pid).  The returned Bool records whether
`switch_context` was invoked.  `none` models the `expect` panics (current pid
not initialised / pids without slots).  The `FIRST_SWITCH` throwaway-pointer
dance and the `sp` exchange performed inside `switch_context` concern the
machine model, not the table. -/
def yield_now (procs : List Process) (current : Nat) :
    Option (List Process × Nat × Bool) :=
  (get_next procs current).bind fun next =>
    if next == current then
      some (procs, current, false)
    else
      (try_get_index procs next).bind fun _ =>
        (try_get_index procs current).map fun _ =>
          (procs, next, true)

/-- States of the process table reachable after `scheduler_init`.

Transitions are the two operations the kernel ever applies to the table:
`create_process` (boot-time creation; panics, i.e. stops, when the table is
full) and the `SYS_EXIT` table effect.  `SYS_EXIT` runs on behalf of the
*currently executing* process; the idle process (pid 0) never executes a
syscall because its body `idle_process()` panics immediately, so the exit
transition carries the side condition `current ≠ 0`. -/
inductive Reachable : List Process → Prop where
  | init : Reachable scheduler_init
  | create {t t' : List Process} {sz sp pid : Nat} :
      Reachable t → create_process t sz sp = some (t', pid) → Reachable t'
  | exit {t : List Process} {current : Nat} :
      Reachable t → current ≠ 0 → Reachable (exit_process t current)

/-! ## Parked image written by `create_process` (`process.rs` lines 174–201) -/

/-- `SSTATUS_SUM` (bit 18) and `SSTATUS_SIE` (bit 1) from `process.rs`. -/
def SSTATUS_SUM : Nat := 2 ^ 18

/-- `SSTATUS_SIE`: supervisor interrupt enable, bit 1 of `sstatus`. -/
def SSTATUS_SIE : Nat := 2

/-- `USER_BASE`: the virtual base address of a user image, `0x1000000`. -/
def USER_BASE : Nat := 0x1000000

/-- The `callee_saved_regs` array that `create_process` writes at the top of
the new process's kernel stack, low address first: `ra = entry`, `s0..s11 = 0`,
`sscratch` (= stack top for a user process, 0 for a kernel process),
`sepc = 0`, `sstatus =` the current `sstatus` read at creation time.
`is_kernel` is `image_size == 0`; `stackTop` is
`process.stack.as_ptr_range().end`. -/
def callee_saved_regs (entry : Nat) (is_kernel : Bool) (stackTop : Nat)
    (sstatusNow : Nat) : List Nat :=
  [entry,
   0, 0, 0, 0, 0, 0, 0, 0, 0, 0, 0, 0,
   if is_kernel then 0 else stackTop,
   0,
   sstatusNow]

/-! ## The live context switch (`scheduler.rs` lines 129–203)

`switch_context(prev_sp, next_sp)` is naked assembly; it is embedded as a
function on a small machine state.  Memory is word-granular, keyed by byte
address; the routine only ever loads and stores aligned words. -/

/-- Registers, CSRs and memory as seen by `switch_context`. -/
structure Machine where
  ra : Nat
  /-- `s0`–`s11`, low index first. -/
  s : List Nat
  sp : Nat
  sstatus : Nat
  sscratch : Nat
  sepc : Nat
  satp : Nat
  mem : Nat → Nat

/-- Store one word at a byte address. -/
def writeW (m : Nat → Nat) (addr v : Nat) : Nat → Nat :=
  fun x => if x = addr then v else m x

/-- Store a list of words at consecutive word addresses, low address first. -/
def storeWords (m : Nat → Nat) (base : Nat) : List Nat → (Nat → Nat)
  | [] => m
  | w :: ws => storeWords (writeW m base w) (base + 4) ws

/-- The push phase of `switch_context`: after `csrrci t0, sstatus, 2` the
routine allocates 17 words (`addi sp, sp, -17*4`) and stores, low to high:
`ra, s0..s11, sscratch, sepc, sstatus` (as read *after* SIE was cleared) and
`satp`; it then stores the new `sp` into `*prev_sp`.  Returns the memory after
those stores together with the pushed-frame address. -/
def pushPhase (st : Machine) (prev_sp : Nat) : (Nat → Nat) × Nat :=
  let sp1 := st.sp - 17 * 4
  let frame := [st.ra] ++ (List.range 12).map (fun k => st.s.getD k 0) ++
    [st.sscratch, st.sepc, st.sstatus &&& (WORD - 1 - SSTATUS_SIE), st.satp]
  let m1 := storeWords st.mem sp1 frame
  (writeW m1 prev_sp sp1, sp1)

/-- `switch_context` from `scheduler.rs`, end to end.  Returns the machine
state at the `ret`, plus whether the conditional `csrw satp` + `sfence.vma`
block executed (`flushed`). -/
def switch_context (st : Machine) (prev_sp next_sp : Nat) : Machine × Bool :=
  let t0 := st.sstatus
  let (m2, _) := pushPhase st prev_sp
  let sp2 := m2 next_sp
  let imageSatp := m2 (sp2 + 16 * 4)
  let (satp2, flushed) :=
    if imageSatp = st.satp then (st.satp, false) else (imageSatp, true)
  let sscratch2 := m2 (sp2 + 13 * 4)
  let sepc2 := m2 (sp2 + 14 * 4)
  let sstatus2 := m2 (sp2 + 15 * 4)
  let ra2 := m2 sp2
  let s2 := (List.range 12).map (fun k => m2 (sp2 + (k + 1) * 4))
  let sp3 := sp2 + 17 * 4
  let sstatus3 := if t0 = 0 then sstatus2 else sstatus2 ||| SSTATUS_SIE
  ({ ra := ra2, s := s2, sp := sp3, sstatus := sstatus3, sscratch := sscratch2,
     sepc := sepc2, satp := satp2, mem := m2 }, flushed)

/-- The satp word of the incoming parked image exactly as `switch_context`
reads it: the word at byte offset `16 * 4` above the stack pointer loaded from
`*next_sp`, in the memory as it stands after the push phase. -/
def incomingImageSatp (st : Machine) (prev_sp next_sp : Nat) : Nat :=
  let (m2, _) := pushPhase st prev_sp
  m2 (m2 next_sp + 16 * 4)

/-! ## Trap frame, file table and syscall dispatch (`trap.rs`, `entry.rs`) -/

/-- The trap frame pushed by `kernel_entry`, fields in the exact source order
(`trap.rs` / `entry.rs` `struct TrapFrame`). -/
structure TrapFrame where
  ra : Nat
  gp : Nat
  tp : Nat
  t0 : Nat
  t1 : Nat
  t2 : Nat
  t3 : Nat
  t4 : Nat
  t5 : Nat
  t6 : Nat
  a0 : Nat
  a1 : Nat
  a2 : Nat
  a3 : Nat
  a4 : Nat
  a5 : Nat
  a6 : Nat
  a7 : Nat
  s0 : Nat
  s1 : Nat
  s2 : Nat
  s3 : Nat
  s4 : Nat
  s5 : Nat
  s6 : Nat
  s7 : Nat
  s8 : Nat
  s9 : Nat
  s10 : Nat
  s11 : Nat
  sp : Nat
  sscratch : Nat
deriving DecidableEq, Repr

/-- Modelled from the spec: the syscall numbers of the `common` crate, which
is not among the kernel sources.  "Numbers: `PUTBYTE=1, GETCHAR=2, EXIT=3,
READFILE=4, WRITEFILE=5`" (the in-kernel test asserts the first two). -/
def SYS_PUTBYTE : Nat := 1

/-- Modelled from the spec: `GETCHAR = 2`. -/
def SYS_GETCHAR : Nat := 2

/-- Modelled from the spec: `EXIT = 3`. -/
def SYS_EXIT : Nat := 3

/-- Modelled from the spec: `READFILE = 4`. -/
def SYS_READFILE : Nat := 4

/-- Modelled from the spec: `WRITEFILE = 5`. -/
def SYS_WRITEFILE : Nat := 5

/-- Modelled from the spec: one entry of the in-RAM tar file table (`tar.rs`
is not among the sources).  "Files are stored contiguously in the kernel's
in-RAM file table with per-file fixed-capacity data buffers"; `data.length` is
that fixed capacity, `size` the recorded file size, `name` the file name
bytes. -/
structure File where
  name : List Nat
  data : List Nat
  size : Nat
deriving DecidableEq, Repr

instance : Inhabited File := ⟨⟨[], [], 0⟩⟩

/-- Modelled from the spec: `FILES.fs_lookup` of the missing `tar.rs` —
"Name-lookup is by exact bytewise match in the in-RAM tar directory". -/
def fs_lookup (files : List File) (name : List Nat) : Option Nat :=
  files.findIdx? (fun fl => fl.name == name)

/-- Everything a syscall touches.  User pointers are dereferenced directly by
the kernel (the page table already maps them), so the bytes behind
`(a0, a1)` and `(a2, a3)` appear here as `filename` and `buf`; `input` is the
byte the SBI console would deliver (if any) and `putErr` the firmware error of
`put_byte` (if any); `out` collects console output. -/
structure SysCtx where
  frame : TrapFrame
  procs : List Process
  current : Nat
  files : List File
  filename : List Nat
  buf : List Nat
  input : Option Nat
  putErr : Option Nat
  out : List Nat
deriving DecidableEq, Repr

/-- Outcome of one `handle_syscall` invocation. -/
inductive SysOutcome where
  /-- The handler returned normally; `flushed` records whether `fs_flush` ran. -/
  | ret (c : SysCtx) (flushed : Bool)
  /-- `SYS_EXIT`: the slot was marked `Exited` and the process yielded away. -/
  | exited (c : SysCtx)
  /-- `SYS_GETCHAR` with no console input: the loop yields forever. -/
  | blocked
  /-- `panic!("unexpected syscall sysno={:x}")`. -/
  | panicked (sysno : Nat)
  /-- Slicing `data[..buf.len()]` with `buf.len() > data.len()` panics. -/
  | lenPanic
deriving DecidableEq, Repr

/-- The body shared verbatim (up to debug prints) by the two dispatchers in
`trap.rs` and `entry.rs`, parameterised by the already-selected syscall
number.  The `str::from_utf8(..).expect(..)` step is abstracted away: the
model receives the filename bytes directly. -/
def syscallBody (sysno : Nat) (c : SysCtx) : SysOutcome :=
  if sysno = SYS_PUTBYTE then
    match c.putErr with
    | none => .ret { c with frame := { c.frame with a0 := 0 },
                            out := c.out ++ [c.frame.a0 % 256] } false
    | some e => .ret { c with frame := { c.frame with a0 := e } } false
  else if sysno = SYS_GETCHAR then
    match c.input with
    | some ch => .ret { c with frame := { c.frame with a0 := ch },
                               input := none } false
    | none => .blocked
  else if sysno = SYS_EXIT then
    .exited { c with procs := exit_process c.procs c.current }
  else if sysno = SYS_READFILE ∨ sysno = SYS_WRITEFILE then
    match fs_lookup c.files c.filename with
    | none => .ret { c with frame := { c.frame with a0 := USIZE_MAX } } false
    | some file_i =>
      let fl := c.files.getD file_i default
      if sysno = SYS_WRITEFILE then
        if c.buf.length ≤ fl.data.length then
          let fl2 : File := { fl with data := c.buf ++ fl.data.drop c.buf.length,
                                      size := c.buf.length }
          .ret { c with files := c.files.set file_i fl2,
                        frame := { c.frame with a0 := c.frame.a3 } } true
        else .lenPanic
      else
        if c.buf.length ≤ fl.data.length then
          .ret { c with buf := fl.data.take c.buf.length,
                        frame := { c.frame with a0 := c.frame.a3 } } false
        else .lenPanic
  else .panicked sysno

/-- `handle_syscall` from `trap.rs`: `let sysno = f.a7;`. -/
def handle_syscall_trap (c : SysCtx) : SysOutcome :=
  syscallBody c.frame.a7 c

/-- `handle_syscall` from `entry.rs`: `let sysno = f.a4;`. -/
def handle_syscall_entry (c : SysCtx) : SysOutcome :=
  syscallBody c.frame.a4 c

/-- `sys_call` from the user library `user/src/lib.rs`: the `ecall` wrapper
places the four arguments in `a0`–`a3` and the syscall number in `a7`;
registers not pinned by the asm are arbitrary (`junk`). -/
def sys_call_frame (arg0 arg1 arg2 arg3 sysno : Nat) (junk : TrapFrame) :
    TrapFrame :=
  { junk with a0 := arg0, a1 := arg1, a2 := arg2, a3 := arg3, a7 := sysno }

/-! ## Trap dispatch (`trap.rs` `handle_trap`) -/

/-- `SCAUSE_ECALL = 8` and `SCAUSE_TIMER_INTERRUPT = 0x80000005`. -/
def SCAUSE_ECALL : Nat := 8

/-- `SCAUSE_TIMER_INTERRUPT`: supervisor timer interrupt cause. -/
def SCAUSE_TIMER_INTERRUPT : Nat := 0x80000005

/-- Result of one `handle_trap` invocation. -/
inductive TrapResult where
  /-- The syscall completed; control returns through `sret` with `sepc`
  rewritten to `sepcAfter`. -/
  | sret (c : SysCtx) (flushed : Bool) (sepcAfter : Nat)
  /-- The syscall body did not return (exit / blocked / panic). -/
  | noReturn (o : SysOutcome)
  /-- Timer interrupt: `TIMER.set(ms)` re-arms the tick, then `yield_now`. -/
  | timerYield (ms : Nat)
  /-- `panic!("unexpected trap scause=.., stval=.., sepc=..")`. -/
  | fatal (scause stval sepc : Nat)
deriving DecidableEq, Repr

/-- `handle_trap` from `trap.rs`: dispatch on `scause`.  For an ecall the
handler re-enables SIE, runs `handle_syscall`, and writes back the sepc it
read at entry plus 4 (32-bit wrap); for a timer interrupt it re-arms a 500 ms
tick and yields; anything else panics with `scause`, `stval`, `sepc`. -/
def handle_trap (scause stval sepc : Nat) (c : SysCtx) : TrapResult :=
  if scause = SCAUSE_ECALL then
    match handle_syscall_trap c with
    | .ret c2 fl => .sret c2 fl ((sepc + 4) % WORD)
    | o => .noReturn o
  else if scause = SCAUSE_TIMER_INTERRUPT then
    .timerYield 500
  else
    .fatal scause stval sepc

/-! ## Derived definitions and concrete instances used by the theorems -/

instance : LawfulBEq State where
  eq_of_beq := by intro a b; cases a <;> cases b <;> decide
  rfl := by intro a; cases a <;> decide

/-- The inductive invariant of the process table: 8 slots; slot 0 is the idle
slot (pid 0, `Runnable`); every other slot carries pid 0 while `Unused` and
pid `i + 1` once live. -/
def Inv (t : List Process) : Prop :=
  t.length = PROCS_MAX ∧
  ((t.getD 0 default).pid = 0 ∧ (t.getD 0 default).state = State.Runnable) ∧
  ∀ i, i < PROCS_MAX → 1 ≤ i →
    ((t.getD i default).state = State.Unused → (t.getD i default).pid = 0) ∧
    ((t.getD i default).state ≠ State.Unused → (t.getD i default).pid = i + 1)

/-- A trap frame with every register zero. -/
def zeroFrame : TrapFrame :=
  ⟨0, 0, 0, 0, 0, 0, 0, 0, 0, 0, 0, 0, 0, 0, 0, 0,
   0, 0, 0, 0, 0, 0, 0, 0, 0, 0, 0, 0, 0, 0, 0, 0⟩

/-- The trap frame produced by the user library call `put_byte(65)`:
`sys_call(65, 0, 0, 0, SYS_PUTBYTE)` pins `a0..a3` and `a7`; every other
register (in particular `a4`) is whatever the user program left there —
zero here. -/
def putbyteFrame : TrapFrame := sys_call_frame 65 0 0 0 SYS_PUTBYTE zeroFrame

/-- A concrete syscall context for the `put_byte(65)` ecall: boot-time
process table, no files, firmware putchar succeeding. -/
def putbyteCtx : SysCtx :=
  { frame := putbyteFrame, procs := scheduler_init, current := 1, files := [],
    filename := [], buf := [], input := none, putErr := none, out := [] }

/-- A one-entry file table: name `"hi"` (bytes 104, 105), fixed 4-byte data
buffer `[10, 20, 30, 40]`, recorded size 2. -/
def demoFile : File := ⟨[104, 105], [10, 20, 30, 40], 2⟩

/-- The file table holding just `demoFile`. -/
def demoFiles : List File := [demoFile]

/-- A syscall context issuing `READFILE("hi", buf, 4)`: a 4-byte user buffer,
longer than `demoFile`'s recorded size 2 but within its 4-byte capacity. -/
def readfileCtx : SysCtx :=
  { frame := sys_call_frame 100 2 200 4 SYS_READFILE zeroFrame,
    procs := scheduler_init, current := 4, files := demoFiles,
    filename := [104, 105], buf := [0, 0, 0, 0], input := none,
    putErr := none, out := [] }

/-- The parked image `create_process` writes for a *user* process created
with `entry = 4096` on a stack whose top is at address 18192, while the
creation-time `sstatus` is 0. -/
def firstSwitchImage : List Nat := callee_saved_regs 4096 false 18192 0

/-- Memory for the first switch into that freshly created user process: the
16 image words sit at the top of the 8 KiB stack `[10000, 18192)`, i.e. at
`18128 = 18192 - 16*4`; the word at 18192 — one past the stack array, where
`switch_context` will look for the 17th (satp) word — holds the garbage value
3405691582; the next process's `sp` field at address 600 holds 18128. -/
def firstSwitchMem : Nat → Nat :=
  writeW (writeW (storeWords (fun _ => 0) 18128 firstSwitchImage)
    18192 3405691582) 600 18128

/-- The machine on which the first switch into the fresh process runs:
bootstrap context with `satp = 7`, about to `switch_context(&500, &600)`. -/
def firstSwitchMachine : Machine :=
  { ra := 0, s := List.replicate 12 0, sp := 1000, sstatus := 0,
    sscratch := 0, sepc := 21845, satp := 7, mem := firstSwitchMem }

/-- A machine entering `switch_context` with `sstatus = 0x100`: SPP set but
SIE (bit 1) *clear*.  The incoming parked image (at address 2000, reached via
the `sp` slot at address 600) is all zeros, so the restored `sstatus` word is
0 and the incoming satp word equals the current satp. -/
def sppOnlyMachine : Machine :=
  { ra := 0, s := List.replicate 12 0, sp := 1000, sstatus := 256,
    sscratch := 0, sepc := 0, satp := 0, mem := writeW (fun _ => 0) 600 2000 }

/-- The process table after boot creates one kernel process on top of
`scheduler_init`: slot 0 is the idle process, slot 1 is pid 2 — the sole
`Runnable` process with nonzero pid. -/
def soloTable : List Process :=
  match create_process scheduler_init 0 77 with
  | some (t, _) => t
  | none => scheduler_init

/-- A machine whose current `satp` is 5 while the incoming parked image's
satp word is 0: the conditional satp switch must fire. -/
def flushDemoMachine : Machine :=
  { ra := 0, s := List.replicate 12 0, sp := 1000, sstatus := 0,
    sscratch := 0, sepc := 0, satp := 5, mem := fun _ => 0 }

/-! ## Helper lemmas -/

theorem getD_of_lt {α : Type} (l : List α) (d : α) {i : Nat} (h : i < l.length) :
    l.getD i d = l[i] := by
  simp [List.getD_eq_getElem?_getD, List.getElem?_eq_getElem h]

/-- Index-level reading of `List.findIdx?`: the hit is inside the list, the
predicate holds there and fails strictly before. -/
theorem findIdx?_spec {α : Type} {p : α → Bool} {l : List α} {i : Nat} (d : α)
    (h : l.findIdx? p = some i) :
    i < l.length ∧ p (l.getD i d) = true ∧
      ∀ j, j < i → p (l.getD j d) = false := by
  rw [List.findIdx?_eq_some_iff_findIdx_eq] at h
  obtain ⟨hlen, hfi⟩ := h
  rw [List.findIdx_eq hlen] at hfi
  obtain ⟨hp, hmin⟩ := hfi
  refine ⟨hlen, ?_, ?_⟩
  · rwa [getD_of_lt _ _ hlen]
  · intro j hj
    rw [getD_of_lt _ _ (lt_trans hj hlen)]
    exact hmin j hj

/-- `find?` over `(range' s n).map f`, `none` case: the predicate fails on
every probed point. -/
theorem find?_map_range'_eq_none {α : Type} (f : Nat → α) (p : α → Bool) :
    ∀ n s, (((List.range' s n).map f).find? p = none ↔
      ∀ k, k < n → p (f (s + k)) = false) := by
  intro n
  induction n with
  | zero => intro s; simp
  | succ m ih =>
    intro s
    rw [List.range'_succ]
    simp only [List.map_cons, List.find?_cons]
    cases hps : p (f s) with
    | true =>
      simp only []
      constructor
      · intro h; cases h
      · intro h
        have h0 := h 0 (Nat.succ_pos m)
        rw [Nat.add_zero] at h0
        rw [hps] at h0
        cases h0
    | false =>
      simp only []
      rw [ih (s + 1)]
      constructor
      · intro h k hk
        match k with
        | 0 => simpa using hps
        | k + 1 =>
          have h2 := h k (Nat.lt_of_succ_lt_succ hk)
          have e : s + 1 + k = s + (k + 1) := by omega
          rwa [e] at h2
      · intro h k hk
        have h2 := h (k + 1) (Nat.succ_lt_succ hk)
        have e : s + (k + 1) = s + 1 + k := by omega
        rwa [e] at h2

/-- `find?` over `(range' s n).map f`, `some` case: the result is the first
probed point satisfying the predicate. -/
theorem find?_map_range'_eq_some {α : Type} (f : Nat → α) (p : α → Bool) (x : α) :
    ∀ n s, (((List.range' s n).map f).find? p = some x ↔
      ∃ k, k < n ∧ p (f (s + k)) = true ∧ x = f (s + k) ∧
        ∀ j, j < k → p (f (s + j)) = false) := by
  intro n
  induction n with
  | zero => intro s; simp
  | succ m ih =>
    intro s
    rw [List.range'_succ]
    simp only [List.map_cons, List.find?_cons]
    cases hps : p (f s) with
    | true =>
      simp only [Option.some.injEq]
      constructor
      · intro h
        exact ⟨0, Nat.succ_pos m, by simpa using hps, by simp [h.symm],
          fun j hj => absurd hj (Nat.not_lt_zero j)⟩
      · rintro ⟨k, _, _, hx, hmin⟩
        match k with
        | 0 => simpa using hx.symm
        | k + 1 =>
          have h0 := hmin 0 (Nat.succ_pos k)
          rw [Nat.add_zero, hps] at h0
          cases h0
    | false =>
      simp only []
      rw [ih (s + 1)]
      constructor
      · rintro ⟨k, hk, hp, hx, hmin⟩
        have e : s + 1 + k = s + (k + 1) := by omega
        rw [e] at hp hx
        refine ⟨k + 1, Nat.succ_lt_succ hk, hp, hx, ?_⟩
        intro j hj
        match j with
        | 0 => simpa using hps
        | j + 1 =>
          have h2 := hmin j (Nat.lt_of_succ_lt_succ hj)
          have e2 : s + 1 + j = s + (j + 1) := by omega
          rwa [e2] at h2
      · rintro ⟨k, hk, hp, hx, hmin⟩
        match k with
        | 0 =>
          rw [Nat.add_zero] at hp
          rw [hps] at hp
          cases hp
        | k + 1 =>
          have e : s + (k + 1) = s + 1 + k := by omega
          rw [e] at hp hx
          refine ⟨k, Nat.lt_of_succ_lt_succ hk, hp, hx, ?_⟩
          intro j hj
          have h2 := hmin (j + 1) (Nat.succ_lt_succ hj)
          have e2 : s + (j + 1) = s + 1 + j := by omega
          rwa [e2] at h2

/-! ## Claim theorems -/

/-- Claim C3: for every call `get_next(current_pid)` where `current_pid` occupies
process-table slot `i` (i.e. `try_get_index` resolves it to `i`), the result
is the pid of the first slot — scanning cyclically starting at slot `i + 1`
and covering all `PROCS_MAX` slots — whose state is `Runnable` and whose pid
is not 0; if no such slot exists, the result is 0 (the idle pid). -/
theorem get_next_first_runnable_cyclic
    (procs : List Process) (current i : Nat)
    (h8 : procs.length = PROCS_MAX)
    (hidx : try_get_index procs current = some i) :
    ∃ r, get_next procs current = some r ∧
      ((∃ k, k < PROCS_MAX ∧
          runnableNonIdle (procs.getD ((i + 1 + k) % PROCS_MAX) default) = true ∧
          r = (procs.getD ((i + 1 + k) % PROCS_MAX) default).pid ∧
          ∀ j, j < k →
            runnableNonIdle (procs.getD ((i + 1 + j) % PROCS_MAX) default) = false) ∨
        ((∀ k, k < PROCS_MAX →
            runnableNonIdle (procs.getD ((i + 1 + k) % PROCS_MAX) default) = false) ∧
          r = IDLE_PID)) := by
  have hscan : cyclicScan procs (i + 1) =
      (List.range' 0 PROCS_MAX).map
        (fun k => procs.getD ((i + 1 + k) % PROCS_MAX) default) := by
    rw [cyclicScan, ← List.range_eq_range', h8]
  cases hfind : (cyclicScan procs (i + 1)).find? runnableNonIdle with
  | none =>
    refine ⟨IDLE_PID, ?_, Or.inr ⟨?_, rfl⟩⟩
    · rw [get_next, hidx, Option.map_some', hfind]
      rfl
    · rw [hscan, find?_map_range'_eq_none] at hfind
      intro k hk
      have := hfind k hk
      rwa [Nat.zero_add] at this
  | some x =>
    refine ⟨x.pid, ?_, Or.inl ?_⟩
    · rw [get_next, hidx, Option.map_some', hfind]
      rfl
    · rw [hscan, find?_map_range'_eq_some] at hfind
      obtain ⟨k, hk, hp, hx, hmin⟩ := hfind
      rw [Nat.zero_add] at hp hx
      refine ⟨k, hk, hp, by rw [hx], ?_⟩
      intro j hj
      have := hmin j hj
      rwa [Nat.zero_add] at this

/-- Claim C9: whenever the current process is the sole `Runnable` non-idle process
(its pid `current` sits in slot `i`, is nonzero and `Runnable`, and every
`Runnable` slot with nonzero pid is slot `i`), `yield_now` selects the current
pid as winner and returns immediately: the table is untouched and
`switch_context` is not called (the `false` flag), and a second consecutive
`yield_now` behaves identically. -/
theorem yield_now_sole_runnable_noop
    (procs : List Process) (current i : Nat)
    (h8 : procs.length = PROCS_MAX)
    (hidx : try_get_index procs current = some i)
    (hrun : (procs.getD i default).state = State.Runnable)
    (hcur : current ≠ 0)
    (hsole : ∀ j, j < PROCS_MAX → runnableNonIdle (procs.getD j default) = true →
      j = i) :
    yield_now procs current = some (procs, current, false) ∧
    ((yield_now procs current).bind fun s => yield_now s.1 s.2.1) =
      some (procs, current, false) := by
  obtain ⟨hilen, hpid, -⟩ := findIdx?_spec (d := default) hidx
  have hpid' : (procs.getD i default).pid = current := by
    simpa using hpid
  have hi8 : i < PROCS_MAX := h8 ▸ hilen
  have hgood : runnableNonIdle (procs.getD i default) = true := by
    unfold runnableNonIdle
    rw [hrun, hpid']
    simp [IDLE_PID, hcur]
  have hfind : (cyclicScan procs (i + 1)).find? runnableNonIdle =
      some (procs.getD i default) := by
    have hscan : cyclicScan procs (i + 1) =
        (List.range' 0 PROCS_MAX).map
          (fun k => procs.getD ((i + 1 + k) % PROCS_MAX) default) := by
      rw [cyclicScan, ← List.range_eq_range', h8]
    rw [hscan, find?_map_range'_eq_some]
    refine ⟨7, by norm_num [PROCS_MAX], ?_, ?_, ?_⟩
    · have e : (i + 1 + (0 + 7)) % PROCS_MAX = i := by
        simp only [PROCS_MAX] at hi8 ⊢
        omega
      rw [e]
      exact hgood
    · have e : (i + 1 + (0 + 7)) % PROCS_MAX = i := by
        simp only [PROCS_MAX] at hi8 ⊢
        omega
      rw [e]
    · intro j hj
      have hne : (i + 1 + (0 + j)) % PROCS_MAX ≠ i := by
        simp only [PROCS_MAX] at hi8 ⊢
        omega
      have hlt : (i + 1 + (0 + j)) % PROCS_MAX < PROCS_MAX := by
        simp only [PROCS_MAX]
        omega
      cases hb : runnableNonIdle (procs.getD ((i + 1 + (0 + j)) % PROCS_MAX) default) with
      | false => rfl
      | true => exact absurd (hsole _ hlt hb) hne
  have hget : get_next procs current = some current := by
    rw [get_next, hidx, Option.map_some', hfind, Option.map_some',
      Option.getD_some, hpid']
  have hone : yield_now procs current = some (procs, current, false) := by
    rw [yield_now, hget, Option.some_bind]
    simp
  exact ⟨hone, by rw [hone, Option.some_bind]; simpa using hone⟩

theorem getD_set_self {α : Type} (l : List α) (d a : α) {i : Nat}
    (h : i < l.length) : (l.set i a).getD i d = a := by
  rw [getD_of_lt _ _ (by simpa using h)]
  exact List.getElem_set_self (by simpa using h)

theorem getD_set_ne {α : Type} (l : List α) (d a : α) {i j : Nat}
    (h : i ≠ j) : (l.set i a).getD j d = l.getD j d := by
  by_cases hj : j < l.length
  · rw [getD_of_lt _ _ (by simpa using hj), getD_of_lt _ _ hj]
    exact List.getElem_set_ne h _
  · rw [List.getD_eq_default _ _ (by simpa using Nat.le_of_not_lt hj),
      List.getD_eq_default _ _ (Nat.le_of_not_lt hj)]

theorem Inv_scheduler_init : Inv scheduler_init := by
  unfold Inv
  decide

theorem Inv_create {t t' : List Process} {sz sp pid : Nat}
    (hInv : Inv t) (h : create_process t sz sp = some (t', pid)) : Inv t' := by
  obtain ⟨hlen, ⟨hp0, hs0⟩, hrest⟩ := hInv
  rw [create_process] at h
  cases hfu : firstUnused t with
  | none => rw [hfu] at h; cases h
  | some i =>
    rw [hfu, Option.map_some', Option.some.injEq] at h
    injection h with ht' hpid
    obtain ⟨hilen, hpU, -⟩ := findIdx?_spec (d := default) hfu
    have hU : (t.getD i default).state = State.Unused := by simpa using hpU
    have hi0 : i ≠ 0 := by
      intro hi
      rw [hi] at hU
      rw [hs0] at hU
      cases hU
    refine ⟨by rw [← ht', List.length_set, hlen], ⟨?_, ?_⟩, ?_⟩
    · rw [← ht', getD_set_ne _ _ _ hi0, hp0]
    · rw [← ht', getD_set_ne _ _ _ hi0, hs0]
    · intro j hj hj1
      by_cases hij : i = j
      · subst hij
        rw [← ht', getD_set_self _ _ _ hilen]
        exact ⟨fun hc => State.noConfusion hc, fun _ => rfl⟩
      · rw [← ht', getD_set_ne _ _ _ hij]
        exact hrest j hj hj1

theorem Inv_exit {t : List Process} {current : Nat}
    (hInv : Inv t) (hcur : current ≠ 0) : Inv (exit_process t current) := by
  obtain ⟨hlen, ⟨hp0, hs0⟩, hrest⟩ := hInv
  rw [exit_process]
  cases hfi : t.findIdx? (fun p => p.pid == current) with
  | none => exact ⟨hlen, ⟨hp0, hs0⟩, hrest⟩
  | some i =>
    obtain ⟨hilen, hpc, -⟩ := findIdx?_spec (d := default) hfi
    have hpc' : (t.getD i default).pid = current := by simpa using hpc
    have hi0 : i ≠ 0 := by
      intro hi
      rw [hi] at hpc'
      rw [hp0] at hpc'
      exact hcur hpc'.symm
    refine ⟨by rw [List.length_set, hlen], ⟨?_, ?_⟩, ?_⟩
    · rw [getD_set_ne _ _ _ hi0, hp0]
    · rw [getD_set_ne _ _ _ hi0, hs0]
    · intro j hj hj1
      by_cases hij : i = j
      · subst hij
        rw [getD_set_self _ _ _ hilen]
        have hnotU : (t.getD i default).state ≠ State.Unused := by
          intro hU
          have := (hrest i hj hj1).1 hU
          rw [this] at hpc'
          exact hcur hpc'.symm
        have hpidi : (t.getD i default).pid = i + 1 :=
          (hrest i hj hj1).2 hnotU
        exact ⟨fun hc => State.noConfusion hc, fun _ => hpidi⟩
      · rw [getD_set_ne _ _ _ hij]
        exact hrest j hj hj1

theorem Inv_reachable {t : List Process} (h : Reachable t) : Inv t := by
  induction h with
  | init => exact Inv_scheduler_init
  | create _ hc ih => exact Inv_create ih hc
  | exit _ hc ih => exact Inv_exit ih hc


/-- Claim C1 (code bug): the claim promises a 17-word parked image ending in
`satp`, with `sepc = 0x0100_0000` and `sstatus.SUM` forced for a user process,
mirroring exactly what `switch_context` pops.  The code writes only 16 words —
`ra = entry`, `s0..s11 = 0`, `sscratch` (= stack top for user), `sepc = 0`,
`sstatus` = the creation-time `sstatus` unmodified, and *no* satp word — while
the live `switch_context` pops 17.  Evaluated on a concrete user process
(entry 4096, stack `[10000, 18192)`, creation `sstatus = 0`): the image has
16 words with `sscratch` word 18192 (this much matches the claim), but its
`sepc` word is 0 rather than `USER_BASE`; after the first switch into the
process `sepc = 0`, `sstatus.SUM` is clear, `satp` is the garbage word
3405691582 read from address 18192 — one word past the written image, outside
the 8 KiB stack — and `sp` ends at 18196, four bytes past the stack array. -/
theorem create_process_parked_image_bug :
    firstSwitchImage.length = 16 ∧
    firstSwitchImage.getD 0 0 = 4096 ∧
    firstSwitchImage.getD 13 0 = 18192 ∧
    firstSwitchImage.getD 14 0 = 0 ∧
    firstSwitchImage.getD 15 0 = 0 ∧
    (switch_context firstSwitchMachine 500 600).1.ra = 4096 ∧
    (switch_context firstSwitchMachine 500 600).1.sepc = 0 ∧
    ((switch_context firstSwitchMachine 500 600).1.sepc = USER_BASE → False) ∧
    (switch_context firstSwitchMachine 500 600).1.sstatus.testBit 18 = false ∧
    (switch_context firstSwitchMachine 500 600).1.satp = 3405691582 ∧
    (switch_context firstSwitchMachine 500 600).2 = true ∧
    (switch_context firstSwitchMachine 500 600).1.sp = 18196 := by
  decide

/-- Claim C2 (code bug): the claim — matching the user library, which places
the syscall number in `a7` — holds of the `trap.rs` dispatcher but not of the
`entry.rs` dispatcher, which reads `f.a4`.  On the frame produced by the user
call `put_byte(65)` (`a0 = 65`, `a7 = SYS_PUTBYTE`, `a4` left at 0), the
`trap.rs` dispatcher performs the putchar and writes the result 0 back into
`a0`, while the `entry.rs` dispatcher reads syscall number 0 from `a4` and
panics with "unexpected syscall". -/
theorem syscall_number_register_bug :
    putbyteFrame.a7 = SYS_PUTBYTE ∧
    putbyteFrame.a4 = 0 ∧
    handle_syscall_trap putbyteCtx =
      SysOutcome.ret
        { putbyteCtx with frame := { putbyteFrame with a0 := 0 },
                          out := [65] } false ∧
    handle_syscall_entry putbyteCtx = SysOutcome.panicked 0 := by
  decide

/-- Claim C4 (code bug): the claim says SIE is re-enabled at the end of
`switch_context` iff the *latched prior SIE bit* was set.  The code latches
the whole prior `sstatus` in `t0` (`csrrci t0, sstatus, 2`) and at the end
tests `beqz t0` — the whole word, not bit 1.  Entering with
`sstatus = 0x100` (SPP set, SIE clear) and an all-zero incoming image, the
routine re-enables SIE even though the prior SIE bit was clear. -/
theorem switch_context_sie_restore_bug :
    sppOnlyMachine.sstatus = 256 ∧
    sppOnlyMachine.sstatus.testBit 1 = false ∧
    (switch_context sppOnlyMachine 500 600).1.sstatus.testBit 1 = true := by
  decide

/-- Claim C5: during every `switch_context`, `satp` is written (with a
following `sfence.vma`, the `flushed` flag) iff the satp word of the incoming
parked image — the word the routine loads from 16 words above the new stack
pointer — differs from the current `satp`; when the two are equal, `satp` is
left unchanged and no `sfence.vma` runs. -/
theorem switch_context_satp_conditional (st : Machine) (prev_sp next_sp v : Nat)
    (hv : incomingImageSatp st prev_sp next_sp = v) :
    ((switch_context st prev_sp next_sp).1.satp,
      (switch_context st prev_sp next_sp).2) =
      if v = st.satp then (st.satp, false) else (v, true) := by
  subst hv
  rw [switch_context, incomingImageSatp]

/-- Witness for C5: a concrete run in which the incoming image's satp word
(0) differs from the current `satp` (5), so the write and flush happen. -/
theorem switch_context_satp_conditional_witness :
    ((switch_context flushDemoMachine 500 600).1.satp,
      (switch_context flushDemoMachine 500 600).2) =
      if 0 = flushDemoMachine.satp then (flushDemoMachine.satp, false)
      else (0, true) :=
  switch_context_satp_conditional flushDemoMachine 500 600 0 (by decide)

/-- `syscallBody` specialised to `SYS_READFILE`: the branch structure after
the number comparisons have been decided. -/
theorem syscallBody_read (c : SysCtx) : syscallBody SYS_READFILE c =
    match fs_lookup c.files c.filename with
    | none => SysOutcome.ret
        { c with frame := { c.frame with a0 := USIZE_MAX } } false
    | some i =>
      if c.buf.length ≤ (c.files.getD i default).data.length then
        SysOutcome.ret
          { c with buf := (c.files.getD i default).data.take c.buf.length,
                   frame := { c.frame with a0 := c.frame.a3 } } false
      else SysOutcome.lenPanic := rfl

/-- `syscallBody` specialised to `SYS_WRITEFILE`. -/
theorem syscallBody_write (c : SysCtx) : syscallBody SYS_WRITEFILE c =
    match fs_lookup c.files c.filename with
    | none => SysOutcome.ret
        { c with frame := { c.frame with a0 := USIZE_MAX } } false
    | some i =>
      if c.buf.length ≤ (c.files.getD i default).data.length then
        SysOutcome.ret
          { c with
            files :=
              c.files.set i
                { c.files.getD i default with
                  data := c.buf ++ (c.files.getD i default).data.drop c.buf.length,
                  size := c.buf.length },
            frame := { c.frame with a0 := c.frame.a3 } } true
      else SysOutcome.lenPanic := rfl

/-- Claim C6: for every `READFILE`/`WRITEFILE` syscall (dispatched via `a7`):
a failed name lookup sets the frame's `a0` to all-ones and leaves the file
table (and everything else) unchanged; on an existing file whose buffer can
hold `buf_len` bytes, `a0` is set to `buf_len` (i.e. `a3`); in particular
`READFILE` with `buf_len = 0` on an existing file returns 0 and leaves the
user buffer untouched. -/
theorem readwritefile_error_handling (c : SysCtx)
    (hsys : c.frame.a7 = SYS_READFILE ∨ c.frame.a7 = SYS_WRITEFILE) :
    (fs_lookup c.files c.filename = none →
      handle_syscall_trap c =
        SysOutcome.ret { c with frame := { c.frame with a0 := USIZE_MAX } }
          false) ∧
    (∀ i, fs_lookup c.files c.filename = some i →
      c.buf.length ≤ (c.files.getD i default).data.length →
      ∃ c2 fl, handle_syscall_trap c = SysOutcome.ret c2 fl ∧
        c2.frame.a0 = c.frame.a3) ∧
    (c.frame.a7 = SYS_READFILE → c.buf = [] → c.frame.a3 = 0 →
      ∀ i, fs_lookup c.files c.filename = some i →
      handle_syscall_trap c =
        SysOutcome.ret { c with frame := { c.frame with a0 := 0 } } false) := by
  refine ⟨?_, ?_, ?_⟩
  · intro hl
    rcases hsys with h | h
    · rw [handle_syscall_trap, h, syscallBody_read]
      simp only [hl]
    · rw [handle_syscall_trap, h, syscallBody_write]
      simp only [hl]
  · intro i hl hfit
    rcases hsys with h | h
    · rw [handle_syscall_trap, h, syscallBody_read]
      simp only [hl]
      rw [if_pos hfit]
      exact ⟨_, _, rfl, rfl⟩
    · rw [handle_syscall_trap, h, syscallBody_write]
      simp only [hl]
      rw [if_pos hfit]
      exact ⟨_, _, rfl, rfl⟩
  · intro hread hbuf ha3 i hl
    rw [handle_syscall_trap, hread, syscallBody_read]
    simp only [hl]
    rw [if_pos (by rw [hbuf]; exact Nat.zero_le _)]
    simp [hbuf, ha3]

/-- Claim C7: `handle_trap` dispatches on `scause`: for `scause = 8` it
invokes the syscall dispatcher and, when the syscall returns, goes back to
`sret` with `sepc` advanced by exactly 4; for `scause = 0x80000005` it
re-arms the 500 ms timer tick and yields; every other `scause` panics,
reporting `scause`, `stval` and `sepc`. -/
theorem handle_trap_dispatch (scause stval sepc : Nat) (c : SysCtx) :
    (scause = SCAUSE_ECALL → ∀ c2 fl, handle_syscall_trap c = SysOutcome.ret c2 fl →
      handle_trap scause stval sepc c = TrapResult.sret c2 fl ((sepc + 4) % WORD)) ∧
    (scause = SCAUSE_TIMER_INTERRUPT →
      handle_trap scause stval sepc c = TrapResult.timerYield 500) ∧
    (scause ≠ SCAUSE_ECALL → scause ≠ SCAUSE_TIMER_INTERRUPT →
      handle_trap scause stval sepc c = TrapResult.fatal scause stval sepc) := by
  refine ⟨?_, ?_, ?_⟩
  · intro h c2 fl hret
    rw [handle_trap, if_pos h, hret]
  · intro h
    rw [handle_trap, if_neg (by rw [h]; decide), if_pos h]
  · intro h1 h2
    rw [handle_trap, if_neg h1, if_neg h2]

/-- Claim C10: a `READFILE` on an existing file (with `buf_len` within the
file's fixed data-array capacity) copies exactly `buf_len` bytes into the
user buffer from the *start of the data array*, with the file's recorded
`size` field playing no role — a read longer than the current size returns
the residual bytes of the array rather than a short or zero-padded result
(the data array is the only input to the copied bytes; `size` does not
appear). -/
theorem readfile_ignores_size (c : SysCtx) (i : Nat)
    (hsys : c.frame.a7 = SYS_READFILE)
    (hlook : fs_lookup c.files c.filename = some i)
    (hfit : c.buf.length ≤ (c.files.getD i default).data.length) :
    handle_syscall_trap c =
      SysOutcome.ret
        { c with buf := (c.files.getD i default).data.take c.buf.length,
                 frame := { c.frame with a0 := c.frame.a3 } } false := by
  rw [handle_syscall_trap, hsys, syscallBody_read]
  simp only [hlook]
  rw [if_pos hfit]

/-- Claim C8 is refuted as stated: at the reachable state left by
`scheduler_init` itself, *eight* slots carry pid 0 — the idle slot and the
seven `Unused` slots, whose placeholder pid is 0 — not exactly one. -/
theorem idle_pid_not_unique :
    Reachable scheduler_init ∧
    scheduler_init.countP (fun p => p.pid == 0) = 8 ∧
    ¬ scheduler_init.countP (fun p => p.pid == 0) = 1 :=
  ⟨Reachable.init, by decide, by decide⟩

/-- Claim C8, amended: at every state reachable after `scheduler_init`,
exactly one *non-`Unused`* slot has pid 0, and that slot is always
`Runnable`.  (`Unused` slots also carry the placeholder pid 0, so the claim
is false of slots at large.) -/
theorem idle_pid_unique_among_live {t : List Process} (h : Reachable t) :
    (∃ i, i < t.length ∧ (t.getD i default).pid = 0 ∧
      (t.getD i default).state ≠ State.Unused ∧
      ∀ j, j < t.length → (t.getD j default).pid = 0 →
        (t.getD j default).state ≠ State.Unused → j = i) ∧
    (∀ j, j < t.length → (t.getD j default).pid = 0 →
      (t.getD j default).state ≠ State.Unused →
      (t.getD j default).state = State.Runnable) := by
  obtain ⟨hlen, ⟨hp0, hs0⟩, hrest⟩ := Inv_reachable h
  have hlen8 : t.length = 8 := hlen
  have huniq : ∀ j, j < t.length → (t.getD j default).pid = 0 →
      (t.getD j default).state ≠ State.Unused → j = 0 := by
    intro j hj hpj hsj
    rcases Nat.eq_zero_or_pos j with h0 | h1
    · exact h0
    · have := (hrest j (by omega) h1).2 hsj
      rw [this] at hpj
      omega
  refine ⟨⟨0, by omega, hp0, by rw [hs0]; exact fun hc => State.noConfusion hc,
    huniq⟩, ?_⟩
  intro j hj hpj hsj
  have := huniq j hj hpj hsj
  subst this
  exact hs0

/-! ## Witnesses: the claim theorems applied at concrete inputs -/

/-- Witness for C3: scanning from the idle pid on the boot table finds no
runnable non-idle slot and falls back to pid 0. -/
theorem get_next_first_runnable_cyclic_witness :
    ∃ r, get_next scheduler_init 0 = some r ∧
      ((∃ k, k < PROCS_MAX ∧
          runnableNonIdle (scheduler_init.getD ((0 + 1 + k) % PROCS_MAX) default) = true ∧
          r = (scheduler_init.getD ((0 + 1 + k) % PROCS_MAX) default).pid ∧
          ∀ j, j < k →
            runnableNonIdle (scheduler_init.getD ((0 + 1 + j) % PROCS_MAX) default) = false) ∨
        ((∀ k, k < PROCS_MAX →
            runnableNonIdle (scheduler_init.getD ((0 + 1 + k) % PROCS_MAX) default) = false) ∧
          r = IDLE_PID)) :=
  get_next_first_runnable_cyclic scheduler_init 0 0 (by decide) (by decide)

/-- Witness for C6: a `READFILE` of 4 bytes from the existing file `"hi"`
returns `a0 = buf_len = 4`. -/
theorem readwritefile_error_handling_witness :
    ∃ c2 fl, handle_syscall_trap readfileCtx = SysOutcome.ret c2 fl ∧
      c2.frame.a0 = readfileCtx.frame.a3 :=
  (readwritefile_error_handling readfileCtx (Or.inl rfl)).2.1 0 (by decide)
    (by decide)

/-- Witness for C7: an ecall (`scause = 8`) carrying `put_byte(65)` with
`sepc = 100` returns through `sret` with `sepc` advanced to 104. -/
theorem handle_trap_dispatch_witness :
    handle_trap SCAUSE_ECALL 0 100 putbyteCtx =
      TrapResult.sret
        { putbyteCtx with frame := { putbyteFrame with a0 := 0 },
                          out := [65] } false 104 :=
  (handle_trap_dispatch SCAUSE_ECALL 0 100 putbyteCtx).1 rfl _ _ (by decide)

/-- Witness for C8 (amended): the boot-time table itself. -/
theorem idle_pid_unique_among_live_witness :
    (∃ i, i < scheduler_init.length ∧
      (scheduler_init.getD i default).pid = 0 ∧
      (scheduler_init.getD i default).state ≠ State.Unused ∧
      ∀ j, j < scheduler_init.length →
        (scheduler_init.getD j default).pid = 0 →
        (scheduler_init.getD j default).state ≠ State.Unused → j = i) ∧
    (∀ j, j < scheduler_init.length →
      (scheduler_init.getD j default).pid = 0 →
      (scheduler_init.getD j default).state ≠ State.Unused →
      (scheduler_init.getD j default).state = State.Runnable) :=
  idle_pid_unique_among_live Reachable.init

/-- Witness for C9: on `soloTable`, pid 2 (slot 1) is the sole runnable
non-idle process, and `yield_now` twice from it is a no-op. -/
theorem yield_now_sole_runnable_noop_witness :
    yield_now soloTable 2 = some (soloTable, 2, false) ∧
    ((yield_now soloTable 2).bind fun s => yield_now s.1 s.2.1) =
      some (soloTable, 2, false) :=
  yield_now_sole_runnable_noop soloTable 2 1 (by decide) (by decide) (by decide)
    (by decide) (by decide)

/-- Witness for C10: reading 4 bytes of the file `"hi"` (recorded size 2,
data `[10, 20, 30, 40]`) yields the full `[10, 20, 30, 40]` — the two bytes
beyond the recorded size are the residual array bytes. -/
theorem readfile_ignores_size_witness :
    handle_syscall_trap readfileCtx =
      SysOutcome.ret
        { readfileCtx with
          buf := (readfileCtx.files.getD 0 default).data.take
            readfileCtx.buf.length,
          frame := { readfileCtx.frame with a0 := readfileCtx.frame.a3 } }
        false :=
  readfile_ignores_size readfileCtx 0 rfl (by decide) (by decide)

end OS1K
